import Mathlib

/-!
Verification development for the region-file subsystem of the `mcutil`
repository (src/world/io/region.rs and src/world/io/region/regionfile.rs).

The Rust code is shallowly embedded: machine integers become `Nat` with the
`as uN` casts written as `% 2^N`, bit operations on power-of-two masks are
written with `/`, `%`, `*` (for example `x >> 12 = x / 4096`,
`x & 4095 = x % 4096`, and `(offset << 8) | count = offset * 256 + count`
when `count < 256`), files become total byte maps `Nat → Nat`, and the
fallible operations return `Except McError`.

Components of the repository that are referenced from the sources but whose
defining module is not part of src/ (the `SectorManager`, the
`required_sectors`/`pad_size` pair imported by regionfile.rs, the `ioext`
big-endian integer codec, and the `math::bit` helpers) are modelled from the
specification; each such definition carries a doc comment saying so.
-/

/-- The master error type, from `src/error.rs` (`McError`).  Payload-carrying
I/O and string variants are collapsed to bare constructors; the region-file
model never produces them. -/
inductive McError where
  | Custom
  | IoError
  | ChunkNotFound
  | InvalidCompressionScheme (b : Nat)
  | OutOfRange
  | FromUtf8Error
  | UnsupportedTagId (b : Nat)
  | EndTagMarker
  | DuplicateChunk
  | StreamSectorBoundaryError
  | ChunkTooLarge
  | RegionAllocationFailure
  deriving DecidableEq, Repr

/-- Compression scheme used for writing or reading, from region.rs
(`CompressionScheme`): 1 = GZip, 2 = ZLib, 3 = uncompressed. -/
inductive CompressionScheme where
  | GZip
  | ZLib
  | Uncompressed
  deriving DecidableEq, Repr

/-- `CompressionScheme::read_from` (region.rs): match on the scheme byte,
any byte other than 1, 2, 3 is `InvalidCompressionScheme`. -/
def readSchemeByte (b : Nat) : Except McError CompressionScheme :=
  match b with
  | 1 => .ok .GZip
  | 2 => .ok .ZLib
  | 3 => .ok .Uncompressed
  | u => .error (.InvalidCompressionScheme u)

/-- `_required_sectors` (region.rs): number of 4 KiB sectors needed for
`size` bytes, `(size >> 12) + ((size & 4095) != 0)` on a `u32` argument.
This also models the `required_sectors` function that regionfile.rs imports
from a module missing from src/; per the spec (§4.E) that function computes
`ceil(size / 4096)`, which is exactly this expression (see
`requiredSectors_eq_ceil`). -/
def requiredSectors (size : Nat) : Nat :=
  size / 4096 + (if size % 4096 ≠ 0 then 1 else 0)

/-- `_pad_size` (region.rs): bytes needed to reach the next 4 KiB boundary,
`(4096 - (size & 4095)) & 4095`.  Also models the `pad_size` import of
regionfile.rs (spec §4.E). -/
def padSize (size : Nat) : Nat :=
  (4096 - size % 4096) % 4096

theorem requiredSectors_eq_ceil (n : Nat) :
    requiredSectors n = (n + 4095) / 4096 := by
  by_cases h : n % 4096 = 0
  · simp only [requiredSectors, h, ne_eq, not_true_eq_false, if_false]
    omega
  · simp only [requiredSectors, ne_eq, h, not_false_eq_true, if_true]
    omega

/-- A region-file chunk coordinate (region.rs `RegionCoord`), a `u16`. -/
structure RegionCoord where
  val : Nat
  deriving DecidableEq, Repr

/-- `RegionCoord::new(x, z)`: reduce each axis to 5 bits and pack as
`(x & 31) | ((z & 31) << 5)`. -/
def RegionCoord.new (x z : Nat) : RegionCoord :=
  ⟨x % 32 + (z % 32) * 32⟩

/-- `RegionCoord::index()`: the raw packed value as a `usize`. -/
def RegionCoord.index (c : RegionCoord) : Nat :=
  c.val

/-- The `From<integer>` impls generated by `__regioncoord_impl`
(region.rs): `Self(value as u16)` — the value is stored unmasked apart
from the `u16` truncation. -/
def RegionCoord.fromU16 (n : Nat) : RegionCoord :=
  ⟨n % 65536⟩

theorem RegionCoord.new_index_lt (x z : Nat) :
    (RegionCoord.new x z).index < 1024 := by
  have hx : x % 32 < 32 := Nat.mod_lt _ (by omega)
  have hz : z % 32 < 32 := Nat.mod_lt _ (by omega)
  simp only [RegionCoord.new, RegionCoord.index]
  omega

/-- `RegionTable<T>` (region.rs): a boxed array of 1024 entries. -/
abbrev RegionTable (α : Type) := Fin 1024 → α

/-- The `Index<C> for RegionTable<T>` impl does `&self.0[coord.index()]` on
a 1024-element array: an index outside `[0, 1024)` is an out-of-bounds
access (a Rust panic), modelled as `none`. -/
def RegionTable.get? {α : Type} (t : RegionTable α) (c : RegionCoord) : Option α :=
  if h : c.index < 1024 then some (t ⟨c.index, h⟩) else none

/-- `RegionBitmask` (region.rs): 1024 bits as 32 `u32` words. -/
abbrev RegionBitmask := Fin 32 → Nat

/-- `RegionBitmask::get`: `sub_index = index / 32`, `bit_index = index % 32`,
then `self.0[sub_index].get_bit(bit_index)`.  The array access panics when
`sub_index ≥ 32` (modelled as `none`).  The bit extraction itself
(`get_bit`) is modelled from the spec, its `math::bit` module being missing
from src/: bit `i` of the word. -/
def RegionBitmask.get? (m : RegionBitmask) (c : RegionCoord) : Option Bool :=
  if h : c.index / 32 < 32 then
    some (Nat.testBit (m ⟨c.index / 32, h⟩) (c.index % 32))
  else none

/-- `RegionSector` (region.rs): a `u32` packing `|offset:3 bytes|count:1 byte|`. -/
structure RegionSector where
  val : Nat
  deriving DecidableEq, Repr

/-- `RegionSector::new(offset, count)`:
`offset.overflowing_shl(8).0 | (count as u32)` with `offset : u32` and
`count : u8`; written arithmetically (the low byte of the shifted offset is
zero, so the bitwise or is an addition). -/
def RegionSector.new (offset count : Nat) : RegionSector :=
  ⟨(offset % 16777216) * 256 + count % 256⟩

/-- `RegionSector::empty()`. -/
def RegionSector.empty : RegionSector := ⟨0⟩

/-- `RegionSector::sector_offset()`: `self.0 >> 8`. -/
def RegionSector.sectorOffset (s : RegionSector) : Nat :=
  s.val / 256

/-- `RegionSector::sector_count()`: `self.0 & 0xFF`. -/
def RegionSector.sectorCount (s : RegionSector) : Nat :=
  s.val % 256

/-- `RegionSector::sector_end_offset()`. -/
def RegionSector.sectorEndOffset (s : RegionSector) : Nat :=
  s.sectorOffset + s.sectorCount

/-- `RegionSector::offset()`: byte offset, `sector_offset * 4096`. -/
def RegionSector.byteOffset (s : RegionSector) : Nat :=
  s.sectorOffset * 4096

/-- `RegionSector::size()`: byte size, `sector_count * 4096`. -/
def RegionSector.byteSize (s : RegionSector) : Nat :=
  s.sectorCount * 4096

/-- `RegionSector::is_empty()`: the packed value is zero. -/
def RegionSector.isEmpty (s : RegionSector) : Bool :=
  s.val == 0

/-- The `BitAnd for RegionSector` impl (region.rs): two sectors intersect
iff `!(self.end <= rhs.start || rhs.end <= self.start)`. -/
def RegionSector.bitand (a b : RegionSector) : Bool :=
  !(decide (a.sectorEndOffset ≤ b.sectorOffset) ||
    decide (b.sectorEndOffset ≤ a.sectorOffset))

/-! ### Byte-level file model

A file is a total byte map `Nat → Nat`; `write_all` at a seek position is a
pointwise overwrite, and the big-endian `u32` codec models the `ioext`
`read_value`/`write_value` helpers (module missing from src/; the spec, §6,
fixes all multi-byte integers as big-endian). -/

/-- Overwrite `data.length` bytes of `f` starting at byte `start`. -/
def writeBytesF (f : Nat → Nat) (start : Nat) (data : List Nat) : Nat → Nat :=
  fun a => if start ≤ a ∧ a - start < data.length then data.getD (a - start) 0 else f a

/-- Read `len` bytes starting at byte `start` (bytes are masked to 8 bits). -/
def readBytesF (f : Nat → Nat) (start len : Nat) : List Nat :=
  (List.range len).map fun k => f (start + k) % 256

/-- Modelled from the spec: big-endian `u32` encoding (`ioext` is missing
from src/). -/
def be32 (v : Nat) : List Nat :=
  [v / 16777216 % 256, v / 65536 % 256, v / 256 % 256, v % 256]

/-- Modelled from the spec: big-endian `u32` decoding (`ioext` is missing
from src/). -/
def readU32 (f : Nat → Nat) (p : Nat) : Nat :=
  (f p % 256) * 16777216 + (f (p + 1) % 256) * 65536 +
    (f (p + 2) % 256) * 256 + f (p + 3) % 256

theorem writeBytesF_out (f : Nat → Nat) (start : Nat) (data : List Nat)
    (a : Nat) (h : a < start ∨ start + data.length ≤ a) :
    writeBytesF f start data a = f a := by
  simp only [writeBytesF, ite_eq_right_iff]
  intro hc
  omega

theorem writeBytesF_in (f : Nat → Nat) (start : Nat) (data : List Nat)
    (a : Nat) (h1 : start ≤ a) (h2 : a - start < data.length) :
    writeBytesF f start data a = data.getD (a - start) 0 := by
  simp only [writeBytesF, if_pos (And.intro h1 h2)]

theorem getD_append_left (l1 l2 : List Nat) (n : Nat) (h : n < l1.length) :
    (l1 ++ l2).getD n 0 = l1.getD n 0 := by
  induction l1 generalizing n with
  | nil => simp at h
  | cons x xs ih =>
    cases n with
    | zero => rfl
    | succ m =>
      simp only [List.cons_append, List.getD_cons_succ]
      exact ih m (by simpa using h)

theorem getD_append_right (l1 l2 : List Nat) (n : Nat) (h : l1.length ≤ n) :
    (l1 ++ l2).getD n 0 = l2.getD (n - l1.length) 0 := by
  induction l1 generalizing n with
  | nil => simp
  | cons x xs ih =>
    cases n with
    | zero => simp at h
    | succ m =>
      simp only [List.cons_append, List.getD_cons_succ, List.length_cons]
      rw [ih m (by simpa using h)]
      congr 1
      omega

/-! ### Sector manager

The `SectorManager` type is referenced by regionfile.rs but its defining
module is not part of src/.  Modelled from the spec (§4.D): an ordered set
of free extents `(start, length)` over the 4 KiB sector space plus an
open-ended trailing free extent starting at `tail`; sectors 0 and 1 (the
header) are reserved, so a fresh manager has `tail = 2` and no finite free
extents. -/

structure SectorManager where
  free : List (Nat × Nat)
  tail : Nat
  deriving Repr

/-- Modelled from the spec: `SectorManager::new()` — only sectors 0 and 1
used. -/
def SectorManager.new : SectorManager := ⟨[], 2⟩

/-- First-fit search: the first free extent of length at least `n`; on
success return its start and the free list with the allocation removed
(remainder returned to the free set). -/
def SectorManager.allocFirstFit :
    List (Nat × Nat) → Nat → Option (Nat × List (Nat × Nat))
  | [], _ => none
  | (s, l) :: rest, n =>
    if n ≤ l then
      some (s, if n < l then (s + n, l - n) :: rest else rest)
    else
      (SectorManager.allocFirstFit rest n).map fun p => (p.1, (s, l) :: p.2)

/-- Modelled from the spec: `allocate(n)` fails with
`RegionAllocationFailure` only if `n = 0` or `n > 255`; otherwise first-fit
over the finite free extents, falling back to the open-ended trailing
extent. -/
def SectorManager.allocate (m : SectorManager) (n : Nat) :
    Except McError (RegionSector × SectorManager) :=
  if n = 0 ∨ 255 < n then .error .RegionAllocationFailure
  else
    match SectorManager.allocFirstFit m.free n with
    | some (a, free') => .ok (RegionSector.new a n, ⟨free', m.tail⟩)
    | none => .ok (RegionSector.new m.tail n, ⟨m.free, m.tail + n⟩)

/-- Insert the free extent `(s, l)` into an ordered free list, coalescing
with immediate neighbours. -/
def SectorManager.insertFree :
    List (Nat × Nat) → Nat → Nat → List (Nat × Nat)
  | [], s, l => [(s, l)]
  | (a, b) :: rest, s, l =>
    if s + l < a then (s, l) :: (a, b) :: rest
    else if s + l = a then (s, l + b) :: rest
    else if a + b = s then SectorManager.insertFree rest a (b + l)
    else (a, b) :: SectorManager.insertFree rest s l

/-- Modelled from the spec: `free(s)` returns `s` to the free set with
coalescing; no-op when `s.is_empty()`. -/
def SectorManager.freeSector (m : SectorManager) (s : RegionSector) : SectorManager :=
  if s.isEmpty then m
  else ⟨SectorManager.insertFree m.free s.sectorOffset s.sectorCount, m.tail⟩

/-- Remove `need` sectors from the front of the free extent that starts
exactly at `pos`, if that extent exists and is large enough. -/
def SectorManager.takeExtentAt :
    List (Nat × Nat) → Nat → Nat → Option (List (Nat × Nat))
  | [], _, _ => none
  | (s, l) :: rest, pos, need =>
    if s = pos ∧ need ≤ l then
      some (if need < l then (s + need, l - need) :: rest else rest)
    else
      (SectorManager.takeExtentAt rest pos need).map fun r => (s, l) :: r

/-- Modelled from the spec: `reallocate(old, n)` — equal count returns
`old`; a smaller count splits `old` and frees the tail; a larger count
first tries to extend into the free space immediately following `old`
(a finite free extent or the open-ended trailing extent), otherwise frees
`old` and allocates fresh.  The `_err` variant rejects `n = 0` and
`n > 255` like `allocate`. -/
def SectorManager.reallocErr (m : SectorManager) (old : RegionSector) (n : Nat) :
    Except McError (RegionSector × SectorManager) :=
  if n = 0 ∨ 255 < n then .error .RegionAllocationFailure
  else if n = old.sectorCount then .ok (old, m)
  else if n < old.sectorCount then
    .ok (RegionSector.new old.sectorOffset n,
         m.freeSector (RegionSector.new (old.sectorOffset + n) (old.sectorCount - n)))
  else
    match SectorManager.takeExtentAt m.free old.sectorEndOffset (n - old.sectorCount) with
    | some free' => .ok (RegionSector.new old.sectorOffset n, ⟨free', m.tail⟩)
    | none =>
      if old.sectorEndOffset = m.tail then
        .ok (RegionSector.new old.sectorOffset n,
             ⟨m.free, m.tail + (n - old.sectorCount)⟩)
      else
        (m.freeSector old).allocate n

/-- Well-formedness of a manager state: the reserved header sectors are
never free, every finite free extent is non-trivial and lies below the
trailing extent, and the sector space in use stays within the 24-bit
offset field capacity (spec §3 invariant 2: every sector offset fits in 3
bytes). -/
def SectorManager.wf (m : SectorManager) : Prop :=
  2 ≤ m.tail ∧ m.tail + 256 ≤ 16777216 ∧
    ∀ e ∈ m.free, 2 ≤ e.1 ∧ 0 < e.2 ∧ e.1 + e.2 ≤ m.tail

/-- A header sector entry that is either empty or a well-placed extent
below the manager's trailing free extent. -/
def RegionSector.inBounds (s : RegionSector) (tail : Nat) : Prop :=
  s.val = 0 ∨ (2 ≤ s.sectorOffset ∧ s.sectorEndOffset ≤ tail)


theorem RegionSector.new_sectorOffset (o n : Nat) (ho : o < 16777216) :
    (RegionSector.new o n).sectorOffset = o := by
  simp only [RegionSector.new, RegionSector.sectorOffset]
  omega

theorem RegionSector.new_sectorCount (o n : Nat) (hn : n < 256) :
    (RegionSector.new o n).sectorCount = n := by
  simp only [RegionSector.new, RegionSector.sectorCount]
  omega

theorem RegionSector.end_zero_of_val_zero (s : RegionSector) (h : s.val = 0) :
    s.sectorEndOffset = 0 := by
  simp [RegionSector.sectorEndOffset, RegionSector.sectorOffset,
    RegionSector.sectorCount, h]

theorem SectorManager.allocFirstFit_mem (free : List (Nat × Nat)) (n a : Nat)
    (free' : List (Nat × Nat))
    (h : SectorManager.allocFirstFit free n = some (a, free')) :
    ∃ e ∈ free, e.1 = a ∧ n ≤ e.2 := by
  induction free generalizing free' with
  | nil => simp [SectorManager.allocFirstFit] at h
  | cons hd rest ih =>
    obtain ⟨s, l⟩ := hd
    simp only [SectorManager.allocFirstFit] at h
    by_cases hc : n ≤ l
    · rw [if_pos hc] at h
      simp only [Option.some.injEq, Prod.mk.injEq] at h
      exact ⟨(s, l), List.mem_cons_self _ _, h.1, hc⟩
    · rw [if_neg hc] at h
      cases hrec : SectorManager.allocFirstFit rest n with
      | none => rw [hrec] at h; simp at h
      | some p =>
        obtain ⟨a', rest'⟩ := p
        rw [hrec] at h
        simp only [Option.map_some', Option.some.injEq, Prod.mk.injEq] at h
        obtain ⟨e, he, h1, h2⟩ := ih rest' (h.1 ▸ hrec)
        exact ⟨e, List.mem_cons_of_mem _ he, h1, h2⟩

theorem SectorManager.takeExtentAt_mem (free : List (Nat × Nat)) (pos need : Nat)
    (free' : List (Nat × Nat))
    (h : SectorManager.takeExtentAt free pos need = some free') :
    ∃ e ∈ free, e.1 = pos ∧ need ≤ e.2 := by
  induction free generalizing free' with
  | nil => simp [SectorManager.takeExtentAt] at h
  | cons hd rest ih =>
    obtain ⟨s, l⟩ := hd
    simp only [SectorManager.takeExtentAt] at h
    by_cases hc : s = pos ∧ need ≤ l
    · exact ⟨(s, l), List.mem_cons_self _ _, hc.1, hc.2⟩
    · rw [if_neg hc] at h
      cases hrec : SectorManager.takeExtentAt rest pos need with
      | none => rw [hrec] at h; simp at h
      | some r =>
        obtain ⟨e, he, h1, h2⟩ := ih r hrec
        exact ⟨e, List.mem_cons_of_mem _ he, h1, h2⟩

theorem SectorManager.insertFree_bounds (free : List (Nat × Nat)) (s l T : Nat)
    (hall : ∀ e ∈ free, 2 ≤ e.1 ∧ e.1 + e.2 ≤ T)
    (hs : 2 ≤ s) (hl : s + l ≤ T) :
    ∀ e ∈ SectorManager.insertFree free s l, 2 ≤ e.1 ∧ e.1 + e.2 ≤ T := by
  induction free generalizing s l with
  | nil =>
    intro e he
    simp only [SectorManager.insertFree, List.mem_singleton] at he
    subst he
    exact ⟨hs, hl⟩
  | cons hd rest ih =>
    obtain ⟨a, b⟩ := hd
    have hhd := hall (a, b) (List.mem_cons_self _ _)
    have hrest : ∀ e ∈ rest, 2 ≤ e.1 ∧ e.1 + e.2 ≤ T :=
      fun e he => hall e (List.mem_cons_of_mem _ he)
    intro e he
    simp only [SectorManager.insertFree] at he
    by_cases h1 : s + l < a
    · rw [if_pos h1] at he
      simp only [List.mem_cons] at he
      rcases he with he | he | he
      · subst he; exact ⟨hs, hl⟩
      · subst he; exact hhd
      · exact hrest _ he
    · rw [if_neg h1] at he
      by_cases h2 : s + l = a
      · rw [if_pos h2] at he
        simp only [List.mem_cons] at he
        rcases he with he | he
        · subst he
          refine ⟨hs, ?_⟩
          have := hhd.2
          omega
        · exact hrest _ he
      · rw [if_neg h2] at he
        by_cases h3 : a + b = s
        · rw [if_pos h3] at he
          exact ih a (b + l) hrest hhd.1 (by omega) e he
        · rw [if_neg h3] at he
          simp only [List.mem_cons] at he
          rcases he with he | he
          · subst he; exact hhd
          · exact ih s l hrest hs hl e he

theorem SectorManager.allocate_bounds (m : SectorManager) (n : Nat)
    (s : RegionSector) (m' : SectorManager)
    (htail : 2 ≤ m.tail) (htT : m.tail + 256 ≤ 16777216)
    (hall : ∀ e ∈ m.free, 2 ≤ e.1 ∧ e.1 + e.2 ≤ 16777216)
    (h : m.allocate n = .ok (s, m')) :
    2 ≤ s.sectorOffset ∧ s.sectorCount = n := by
  simp only [SectorManager.allocate] at h
  by_cases hn : n = 0 ∨ 255 < n
  · rw [if_pos hn] at h; simp at h
  · rw [if_neg hn] at h
    push_neg at hn
    cases hff : SectorManager.allocFirstFit m.free n with
    | some p =>
      obtain ⟨a, free'⟩ := p
      rw [hff] at h
      simp only [Except.ok.injEq, Prod.mk.injEq] at h
      obtain ⟨e, he, h1, h2⟩ := SectorManager.allocFirstFit_mem m.free n a free' hff
      have hb := hall e he
      rw [← h.1]
      constructor
      · rw [RegionSector.new_sectorOffset _ _ (by omega)]; omega
      · exact RegionSector.new_sectorCount _ _ (by omega)
    | none =>
      rw [hff] at h
      simp only [Except.ok.injEq, Prod.mk.injEq] at h
      rw [← h.1]
      constructor
      · rw [RegionSector.new_sectorOffset _ _ (by omega)]; exact htail
      · exact RegionSector.new_sectorCount _ _ (by omega)

theorem SectorManager.reallocErr_bounds (m : SectorManager) (old : RegionSector)
    (n : Nat) (s : RegionSector) (m' : SectorManager)
    (hwf : m.wf) (hold : old.inBounds m.tail)
    (h : m.reallocErr old n = .ok (s, m')) :
    2 ≤ s.sectorOffset ∧ s.sectorCount = n := by
  obtain ⟨htail, htT, hall⟩ := hwf
  have hallB : ∀ e ∈ m.free, 2 ≤ e.1 ∧ e.1 + e.2 ≤ 16777216 :=
    fun e he => ⟨(hall e he).1, by have := (hall e he).2.2; omega⟩
  simp only [SectorManager.reallocErr] at h
  by_cases hn : n = 0 ∨ 255 < n
  · rw [if_pos hn] at h; simp at h
  · rw [if_neg hn] at h
    push_neg at hn
    have holdoff : old.val ≠ 0 → 2 ≤ old.sectorOffset ∧ old.sectorOffset < 16777216 := by
      intro hne
      rcases hold with hv | ⟨h2, hend⟩
      · exact absurd hv hne
      · refine ⟨h2, ?_⟩
        simp only [RegionSector.sectorEndOffset] at hend
        omega
    by_cases heq : n = old.sectorCount
    · rw [if_pos heq] at h
      simp only [Except.ok.injEq, Prod.mk.injEq] at h
      have hne : old.val ≠ 0 := by
        intro hv
        have : old.sectorCount = 0 := by simp [RegionSector.sectorCount, hv]
        omega
      rw [← h.1]
      exact ⟨(holdoff hne).1, heq.symm⟩
    · rw [if_neg heq] at h
      by_cases hlt : n < old.sectorCount
      · rw [if_pos hlt] at h
        simp only [Except.ok.injEq, Prod.mk.injEq] at h
        have hne : old.val ≠ 0 := by
          intro hv
          have : old.sectorCount = 0 := by simp [RegionSector.sectorCount, hv]
          omega
        rw [← h.1]
        constructor
        · rw [RegionSector.new_sectorOffset _ _ (holdoff hne).2]
          exact (holdoff hne).1
        · exact RegionSector.new_sectorCount _ _ (by omega)
      · rw [if_neg hlt] at h
        cases hte : SectorManager.takeExtentAt m.free old.sectorEndOffset
            (n - old.sectorCount) with
        | some free' =>
          rw [hte] at h
          simp only [Except.ok.injEq, Prod.mk.injEq] at h
          obtain ⟨e, he, h1, _⟩ := SectorManager.takeExtentAt_mem _ _ _ _ hte
          have hb := hall e he
          have hne : old.val ≠ 0 := by
            intro hv
            have := RegionSector.end_zero_of_val_zero old hv
            omega
          rw [← h.1]
          constructor
          · rw [RegionSector.new_sectorOffset _ _ (holdoff hne).2]
            exact (holdoff hne).1
          · exact RegionSector.new_sectorCount _ _ (by omega)
        | none =>
          rw [hte] at h
          by_cases htl : old.sectorEndOffset = m.tail
          · rw [if_pos htl] at h
            simp only [Except.ok.injEq, Prod.mk.injEq] at h
            have hne : old.val ≠ 0 := by
              intro hv
              have := RegionSector.end_zero_of_val_zero old hv
              omega
            rw [← h.1]
            constructor
            · rw [RegionSector.new_sectorOffset _ _ (holdoff hne).2]
              exact (holdoff hne).1
            · exact RegionSector.new_sectorCount _ _ (by omega)
          · rw [if_neg htl] at h
            by_cases hemp : old.isEmpty
            · have hmm : m.freeSector old = m := by
                simp [SectorManager.freeSector, hemp]
              rw [hmm] at h
              exact SectorManager.allocate_bounds m n s m' htail htT hallB h
            · have hne : old.val ≠ 0 := by
                simpa [RegionSector.isEmpty] using hemp
              have hmm : m.freeSector old =
                  SectorManager.mk
                    (SectorManager.insertFree m.free old.sectorOffset old.sectorCount)
                    m.tail := by
                simp [SectorManager.freeSector, hemp]
              rw [hmm] at h
              have hend : old.sectorOffset + old.sectorCount ≤ m.tail := by
                rcases hold with hv | ⟨_, hendb⟩
                · exact absurd hv hne
                · simpa [RegionSector.sectorEndOffset] using hendb
              have hins := SectorManager.insertFree_bounds m.free old.sectorOffset
                old.sectorCount 16777216
                (fun e he => ⟨(hall e he).1, by have := (hall e he).2.2; omega⟩)
                (holdoff hne).1 (by omega)
              exact SectorManager.allocate_bounds
                (SectorManager.mk
                  (SectorManager.insertFree m.free old.sectorOffset old.sectorCount)
                  m.tail) n s m' htail htT hins h

/-! ### The region file (regionfile.rs `RegionFile`)

State: in-memory header (sector table and timestamp table), sector manager,
and the file contents as a byte map.  The reusable scratch buffer is not
state (its contents are cleared at the start of every `write_data`).

Compression is an external collaborator (the flate2 crate): the model takes
the already-compressed zlib stream of a payload as a byte list, exactly the
bytes the `ZlibEncoder` appends to the scratch buffer. -/

structure RegionFileState where
  sectors : Fin 1024 → RegionSector
  timestamps : Fin 1024 → Nat
  manager : SectorManager
  file : Nat → Nat

/-- `RegionFile::create`: empty header, fresh manager, 8192 zero bytes on
disk (and every byte past the end of a file reads as zero in this model). -/
def freshState : RegionFileState :=
  { sectors := fun _ => RegionSector.empty
    timestamps := fun _ => 0
    manager := SectorManager.new
    file := fun _ => 0 }

/-- The scratch buffer contents at the end of `RegionFile::write_data`
(regionfile.rs lines 137-163): five prewritten `2` bytes, the zlib stream,
pad zeroes to a 4 KiB multiple, and then the big-endian
`(length + 1) as u32` written back over the first four bytes — leaving byte
4 holding the compression scheme value 2. -/
def frameBuffer (enc : List Nat) : List Nat :=
  be32 ((enc.length + 1) % 4294967296) ++ [2] ++ enc ++
    List.replicate (padSize (enc.length + 5)) 0

/-- `RegionFile::write_data` (regionfile.rs lines 134-178), for the payload
whose zlib stream is `enc`: compute `required_sectors((length + 5) as u32)`,
fail with `ChunkTooLarge` above 255, reallocate the coord's sector, write
the padded frame at the new sector's byte offset, update the in-memory
sector table, and write the 4-byte sector entry at the coord's
sector-table offset.  Timestamps are untouched. -/
def writeData (st : RegionFileState) (i : Fin 1024) (enc : List Nat) :
    Except McError (RegionFileState × RegionSector) :=
  if 255 < requiredSectors ((enc.length + 5) % 4294967296) then
    .error .ChunkTooLarge
  else
    match st.manager.reallocErr (st.sectors i)
        (requiredSectors ((enc.length + 5) % 4294967296)) with
    | .error e => .error e
    | .ok (ns, mgr) =>
      .ok ({ st with
              sectors := Function.update st.sectors i ns
              manager := mgr
              file := writeBytesF
                (writeBytesF st.file ns.byteOffset (frameBuffer enc))
                (4 * i.val) (be32 ns.val) },
           ns)

/-- `RegionFile::write_timestamped` (regionfile.rs lines 182-193):
`write_data`, then update the in-memory timestamp and write its 4 bytes at
the coord's timestamp-table offset. -/
def writeTimestamped (st : RegionFileState) (i : Fin 1024) (enc : List Nat)
    (ts : Nat) : Except McError (RegionFileState × RegionSector) :=
  match writeData st i enc with
  | .error e => .error e
  | .ok (st1, alloc) =>
    .ok ({ st1 with
            timestamps := Function.update st1.timestamps i (ts % 4294967296)
            file := writeBytesF st1.file (4096 + 4 * i.val) (be32 ts) },
         alloc)

/-- `RegionFile::read_data` (regionfile.rs lines 202-228): `ChunkNotFound`
when the slot's sector is empty or the stored frame length is zero;
otherwise return the scheme together with the `length - 1` raw frame bytes
that the source hands to the scheme's decoder. -/
def readData (st : RegionFileState) (i : Fin 1024) :
    Except McError (CompressionScheme × List Nat) :=
  if (st.sectors i).isEmpty then .error .ChunkNotFound
  else
    let length := readU32 st.file (st.sectors i).byteOffset
    if length = 0 then .error .ChunkNotFound
    else
      match readSchemeByte (st.file ((st.sectors i).byteOffset + 4) % 256) with
      | .error e => .error e
      | .ok sch =>
        .ok (sch, readBytesF st.file ((st.sectors i).byteOffset + 5) (length - 1))

/-- `RegionFile::delete_data` (regionfile.rs lines 233-249): if the slot is
already empty return the (empty) sector without touching anything;
otherwise free the sector, clear both in-memory header entries, and zero
the 4-byte sector-table and timestamp-table slots on disk.  Returns the
sector that was deleted together with the resulting state. -/
def deleteData (st : RegionFileState) (i : Fin 1024) :
    RegionSector × RegionFileState :=
  if (st.sectors i).isEmpty then (st.sectors i, st)
  else
    (st.sectors i,
     { sectors := Function.update st.sectors i RegionSector.empty
       timestamps := Function.update st.timestamps i 0
       manager := st.manager.freeSector (st.sectors i)
       file := writeBytesF
         (writeBytesF st.file (4 * i.val) (List.replicate 4 0))
         (4096 + 4 * i.val) (List.replicate 4 0) })

/-- The state produced by a successful write, with a default for failures
(used only to state closed theorems about concrete successful writes). -/
def writtenState (r : Except McError (RegionFileState × RegionSector))
    (d : RegionFileState) : RegionFileState :=
  match r with
  | .ok (st, _) => st
  | .error _ => d

/-! ### The streaming writer (region.rs `RegionWriter`) and the rebuild
skeleton (`rebuild_region_file`, `write_chunks`, `delete_chunks`).

A writer is a byte map plus a stream position; a reader over the input file
is a byte map read at explicit positions (each loop iteration of the
rebuild seeks the reader before use). -/

/-- `RegionWriter::write_data_to_sector` (region.rs lines 1197-1266), for
the payload whose zlib stream is `enc`: requires the stream position to be
on a 4 KiB boundary, writes 4 length placeholder bytes, the scheme byte 2,
the zlib stream, pad zeroes, then seeks back and writes the big-endian
`length as u32`.  Returns the `RegionSector` built from
`(position >> 12) as u32` and `_required_sectors(length + 4) as u8`,
the new file contents, and the new stream position. -/
def writeDataToSector (wfile : Nat → Nat) (wpos : Nat) (enc : List Nat) :
    Except McError (RegionSector × (Nat → Nat) × Nat) :=
  if wpos % 4096 ≠ 0 then .error .StreamSectorBoundaryError
  else
    .ok (RegionSector.new ((wpos / 4096) % 4294967296)
           (requiredSectors (((enc.length + 1) % 4294967296 + 4) % 4294967296) % 256),
         writeBytesF wfile wpos (frameBuffer enc),
         wpos + (frameBuffer enc).length)

/-- `RegionWriter::copy_chunk_from` (region.rs lines 1280-1309): requires a
4 KiB boundary, reads the 4-byte frame length from the reader positioned at
`rpos`; a zero length returns `Err(ChunkNotFound)` (the doc comment above
the function promises an empty `RegionSector` instead — see claim C2);
otherwise copies the length, `length` data bytes and pad zeroes, and
returns the sector written, the new writer contents and position. -/
def copyChunkFrom (r : Nat → Nat) (rpos : Nat) (wfile : Nat → Nat) (wpos : Nat) :
    Except McError (RegionSector × (Nat → Nat) × Nat) :=
  if wpos % 4096 ≠ 0 then .error .StreamSectorBoundaryError
  else
    let length := readU32 r rpos
    if length = 0 then .error .ChunkNotFound
    else
      .ok (RegionSector.new ((wpos % 4294967296) / 4096)
             (requiredSectors ((length + 4) % 4294967296) % 256),
           writeBytesF wfile wpos
             (be32 length ++ readBytesF r (rpos + 4) length ++
               List.replicate (padSize (length + 4)) 0),
           wpos + 4 + length + padSize (length + 4))

/-- Big-endian bytes of a 1024-entry sector table (the `Writable` impl of
`RegionTable`, region.rs lines 736-744, writes the 1024 `u32` values in
order). -/
def sectorTableBytes (sectors : Fin 1024 → RegionSector) : List Nat :=
  (List.finRange 1024).foldr (fun i acc => be32 (sectors i).val ++ acc) []

/-- One slot of the copy loop shared by `rebuild_region_file` (region.rs
lines 1755-1759), the `None` branch of `write_chunks` (lines 1697-1702) and
the non-deleted branch of `delete_chunks` (lines 1603-1607): skip an empty
entry, otherwise seek the reader to the entry's byte offset and
`copy_chunk_from`, storing the returned sector in the in-flight table. -/
def copySlotStep (input : Nat → Nat)
    (acc : (Fin 1024 → RegionSector) × (Nat → Nat) × Nat) (i : Fin 1024) :
    Except McError ((Fin 1024 → RegionSector) × (Nat → Nat) × Nat) :=
  if (acc.1 i).isEmpty then .ok acc
  else
    match copyChunkFrom input (acc.1 i).byteOffset acc.2.1 acc.2.2 with
    | .error e => .error e
    | .ok (s, wf, wp) => .ok (Function.update acc.1 i s, wf, wp)

/-- The `for i in 0..1024` loop of the rebuild paths, as a structural
recursion on the number of remaining slots: run `step` on slots
`idx, idx+1, ...` while `idx < 1024`, propagating the first error. -/
def slotLoop {α : Type}
    (step : α → Fin 1024 → Except McError α) :
    Nat → Nat → α → Except McError α
  | 0, _, acc => .ok acc
  | n + 1, idx, acc =>
    if h : idx < 1024 then
      match step acc ⟨idx, h⟩ with
      | .error e => .error e
      | .ok acc2 => slotLoop step n (idx + 1) acc2
    else .ok acc

/-- `rebuild_region_file` (region.rs lines 1732-1770): read the sector
table from the input, write a blank table and copy the timestamp table to
the temp file, run the copy loop over all 1024 slots, then write the new
sector table at offset 0.  On success the result is the byte map copied
over the output path; any per-slot error aborts the whole rebuild. -/
def rebuildRegionFile (input : Nat → Nat) : Except McError (Nat → Nat) :=
  match slotLoop (copySlotStep input) 1024 0
      (fun i : Fin 1024 => RegionSector.mk (readU32 input (4 * i.val)),
       writeBytesF (fun _ => 0) 4096 (readBytesF input 4096 4096),
       8192) with
  | .error e => .error e
  | .ok (sectors, wf, _) => .ok (writeBytesF wf 0 (sectorTableBytes sectors))

/-- A region file whose slot 0 header entry is `(offset 2, count 1)` while
the frame length stored at sector 2 is zero (a "wasted" slot); every other
byte is zero. -/
def c2InputFile : Nat → Nat :=
  fun a => if a = 2 then 2 else if a = 3 then 1 else 0

/-- The input-collection fold of `write_chunks` (region.rs lines
1662-1670): entries are `((x, z), zlib stream)` pairs (the `Into<RegionCoord>`
tuple conversion goes through `RegionCoord::new`); a second entry for an
already-occupied slot of the 1024-element array is `DuplicateChunk`. -/
def buildChunksArr :
    List ((Nat × Nat) × List Nat) → (Fin 1024 → Option (List Nat)) →
    Except McError (Fin 1024 → Option (List Nat))
  | [], acc => .ok acc
  | (xy, item) :: rest, acc =>
    if (acc ⟨(RegionCoord.new xy.1 xy.2).index,
          RegionCoord.new_index_lt xy.1 xy.2⟩).isSome then
      .error .DuplicateChunk
    else
      buildChunksArr rest
        (Function.update acc
          ⟨(RegionCoord.new xy.1 xy.2).index, RegionCoord.new_index_lt xy.1 xy.2⟩
          (some item))

/-- One slot of the `write_chunks` loop (region.rs lines 1689-1704):
a caller-supplied chunk is written with `write_data_to_sector` and gets the
caller's timestamp; otherwise the old chunk is copied as in the rebuild. -/
def writeChunksStep (input : Nat → Nat) (ts : Nat)
    (chunks : Fin 1024 → Option (List Nat))
    (acc : (Fin 1024 → RegionSector) × (Fin 1024 → Nat) × (Nat → Nat) × Nat)
    (i : Fin 1024) :
    Except McError ((Fin 1024 → RegionSector) × (Fin 1024 → Nat) × (Nat → Nat) × Nat) :=
  match chunks i with
  | some enc =>
    match writeDataToSector acc.2.2.1 acc.2.2.2 enc with
    | .error e => .error e
    | .ok (s, wf, wp) =>
      .ok (Function.update acc.1 i s, Function.update acc.2.1 i ts, wf, wp)
  | none =>
    if (acc.1 i).isEmpty then .ok acc
    else
      match copyChunkFrom input (acc.1 i).byteOffset acc.2.2.1 acc.2.2.2 with
      | .error e => .error e
      | .ok (s, wf, wp) => .ok (Function.update acc.1 i s, acc.2.1, wf, wp)

/-- Big-endian bytes of the full 8 KiB header (sector table followed by
timestamp table; the `Writable` impl of `RegionHeader`, region.rs lines
769-775). -/
def headerBytes (sectors : Fin 1024 → RegionSector) (tstamps : Fin 1024 → Nat) :
    List Nat :=
  sectorTableBytes sectors ++
    (List.finRange 1024).foldr (fun i acc => be32 (tstamps i) ++ acc) []

/-- `write_chunks` (region.rs lines 1647-1714), modelled together with the
contents of the path it writes to: if no file exists at the path an empty
8 KiB region file is created first (all-zero byte map); then the inputs are
collected (rejecting duplicates); then the header is read from the input
file and the rebuild loop runs against a temp file, which finally receives
the header and is copied over the path.  The result pairs the returned
`McResult` with the bytes at the path after the call (`none` = no file). -/
def writeChunks (disk : Option (Nat → Nat)) (ts : Nat)
    (entries : List ((Nat × Nat) × List Nat)) :
    Except McError (Nat → Nat) × Option (Nat → Nat) :=
  let file0 := disk.getD (fun _ => 0)
  match buildChunksArr entries (fun _ => none) with
  | .error e => (.error e, some file0)
  | .ok chunks =>
    match slotLoop (writeChunksStep file0 ts chunks) 1024 0
        (fun i : Fin 1024 => RegionSector.mk (readU32 file0 (4 * i.val)),
         fun i : Fin 1024 => readU32 file0 (4096 + 4 * i.val),
         fun _ => 0, 8192) with
    | .error e => (.error e, some file0)
    | .ok (sectors, tstamps, wf, _) =>
      let final := writeBytesF wf 0 (headerBytes sectors tstamps)
      (.ok final, some final)

/-! ### Helpers for stating and proving the claim theorems -/

/-- Slot 0 of the header tables. -/
def slot0 : Fin 1024 := ⟨0, by omega⟩

/-- The sector returned by a successful write (`none` on failure). -/
def writtenSector (r : Except McError (RegionFileState × RegionSector)) :
    Option RegionSector :=
  match r with
  | .ok (_, s) => some s
  | .error _ => none

theorem be32_length (v : Nat) : (be32 v).length = 4 := rfl

theorem frameBuffer_length (enc : List Nat) :
    (frameBuffer enc).length = 5 + enc.length + padSize (enc.length + 5) := by
  simp [frameBuffer, be32]
  omega

/-- On success, `write_data` performs exactly the frame write at the new
sector followed by the header-entry write, and installs the new sector and
manager state. -/
theorem writeData_ok_shape (st : RegionFileState) (i : Fin 1024) (enc : List Nat)
    (ns : RegionSector) (mgr : SectorManager)
    (hbig : ¬ 255 < requiredSectors ((enc.length + 5) % 4294967296))
    (hre : st.manager.reallocErr (st.sectors i)
      (requiredSectors ((enc.length + 5) % 4294967296)) = .ok (ns, mgr)) :
    writeData st i enc =
      .ok ({ st with
              sectors := Function.update st.sectors i ns
              manager := mgr
              file := writeBytesF (writeBytesF st.file ns.byteOffset (frameBuffer enc))
                (4 * i.val) (be32 ns.val) }, ns) := by
  simp [writeData, hbig, hre]

/-- On a fresh file, reallocating the empty slot for a stream of
4294967295 bytes ends up allocating one sector at the trailing extent:
sector `(offset 2, count 1)`. -/
theorem reallocErr_fresh_one :
    freshState.manager.reallocErr (freshState.sectors slot0)
      (requiredSectors (((List.replicate 4294967295 0).length + 5) % 4294967296)) =
      .ok (RegionSector.new 2 1, SectorManager.mk [] 3) := by
  simp only [List.length_replicate]
  rfl

/-- The first four bytes at offset 8192 after the wrapped write of claim C1
are the big-endian encoding of `(4294967295 + 1) as u32 = 0`. -/
theorem wrapWrite_bytes_zero :
    ∀ k, k < 4 →
        (writeBytesF (writeBytesF freshState.file (RegionSector.new 2 1).byteOffset
          (frameBuffer (List.replicate 4294967295 0)))
          (4 * slot0.val) (be32 (RegionSector.new 2 1).val)) (8192 + k) = 0 := by
  have hoff : (RegionSector.new 2 1).byteOffset = 8192 := by rfl
  have hslot : slot0.val = 0 := rfl
  intro k hk
  rw [writeBytesF_out _ _ _ _ (Or.inr (by rw [hslot, be32_length]; omega))]
  rw [hoff]
  rw [writeBytesF_in _ _ _ _ (by omega)
    (by rw [frameBuffer_length, List.length_replicate]; omega)]
  have hk4 : 8192 + k - 8192 = k := by omega
  rw [hk4]
  unfold frameBuffer
  rw [getD_append_left _ _ _ (by
    rw [List.length_append, List.length_append, be32_length, List.length_replicate]
    omega)]
  rw [getD_append_left _ _ _ (by
    rw [List.length_append, be32_length]
    simp only [List.length_singleton]
    omega)]
  rw [getD_append_left _ _ _ (by rw [be32_length]; omega)]
  simp only [List.length_replicate]
  interval_cases k
  · decide
  · decide
  · decide
  · decide

/-- The scheme byte of every frame buffer is 2 (ZLib). -/
theorem frameBuffer_getD_four (enc : List Nat) : (frameBuffer enc).getD 4 0 = 2 := by
  unfold frameBuffer
  rw [getD_append_left _ _ _ (by
    rw [List.length_append, List.length_append, be32_length, List.length_singleton]
    omega)]
  rw [getD_append_left _ _ _ (by
    rw [List.length_append, be32_length, List.length_singleton]
    omega)]
  rw [getD_append_right _ _ _ (by rw [be32_length])]
  rw [be32_length]
  decide

/-- The manager of a freshly created region file is well formed. -/
theorem freshState_manager_wf : freshState.manager.wf := by
  refine ⟨by norm_num [freshState, SectorManager.new],
    by norm_num [freshState, SectorManager.new], ?_⟩
  intro e he
  simp [freshState, SectorManager.new] at he

/-- The slot targeted by a `write_chunks` entry. -/
def entrySlot (e : (Nat × Nat) × List Nat) : Fin 1024 :=
  ⟨(RegionCoord.new e.1.1 e.1.2).index, RegionCoord.new_index_lt e.1.1 e.1.2⟩

/-- If the entry list repeats a slot (or hits an already-occupied slot of
the accumulator array), the collection fold of `write_chunks` fails with
`DuplicateChunk`. -/
theorem buildChunksArr_dup (entries : List ((Nat × Nat) × List Nat))
    (acc : Fin 1024 → Option (List Nat))
    (h : ¬ (entries.map entrySlot).Nodup ∨
         ∃ e ∈ entries, (acc (entrySlot e)).isSome) :
    buildChunksArr entries acc = .error .DuplicateChunk := by
  induction entries generalizing acc with
  | nil =>
    rcases h with h | h
    · simp at h
    · obtain ⟨e, he, _⟩ := h
      simp at he
  | cons hd rest ih =>
    obtain ⟨xy, item⟩ := hd
    have hraw : (⟨(RegionCoord.new xy.1 xy.2).index,
        RegionCoord.new_index_lt xy.1 xy.2⟩ : Fin 1024) = entrySlot (xy, item) := rfl
    by_cases hocc : (acc (entrySlot (xy, item))).isSome
    · simp only [buildChunksArr, hraw]
      rw [if_pos hocc]
    · simp only [buildChunksArr, hraw]
      rw [if_neg hocc]
      apply ih
      rcases h with hnd | hex
      · rw [List.map_cons, List.nodup_cons] at hnd
        push_neg at hnd
        by_cases hmem : entrySlot (xy, item) ∈ rest.map entrySlot
        · right
          obtain ⟨e, he, hee⟩ := List.mem_map.mp hmem
          refine ⟨e, he, ?_⟩
          rw [hee, Function.update_same]
          rfl
        · left
          exact hnd hmem
      · obtain ⟨e, he, hsome⟩ := hex
        rcases List.mem_cons.mp he with he1 | he2
        · subst he1
          exact absurd hsome hocc
        · right
          refine ⟨e, he2, ?_⟩
          rw [Function.update_apply]
          by_cases hef : entrySlot e = entrySlot (xy, item)
          · rw [if_pos hef]; rfl
          · rw [if_neg hef]; exact hsome

/-! ### Claim theorems -/

/-- Claim C3 (amended): the overlap predicate (the `BitAnd` impl on
`RegionSector`) returns true iff `a.end > b.start` and `b.end > a.start`
over the half-open sector extents; and a sector of count 0 never overlaps
(in either order) a sector that starts at the same offset.  The original
claim's stronger clause — that a count-0 sector never overlaps anything —
is refuted by `bitand_zero_count_overlaps_ctrex`: a count-0 sector whose
start lies strictly inside another sector's extent does overlap it under
this predicate. -/
theorem bitand_half_open_characterization :
    (∀ a b : RegionSector, a.bitand b = true ↔
      (b.sectorOffset < a.sectorEndOffset ∧ a.sectorOffset < b.sectorEndOffset)) ∧
    (∀ a b : RegionSector, a.sectorCount = 0 → a.sectorOffset = b.sectorOffset →
      a.bitand b = false ∧ b.bitand a = false) := by
  constructor
  · intro a b
    simp [RegionSector.bitand, RegionSector.sectorEndOffset]
  · intro a b h1 h2
    simp [RegionSector.bitand, RegionSector.sectorEndOffset, h1, h2]

/-- Claim C3 witness: the sector `(offset 5, count 0)` does not overlap the
sector `(offset 5, count 3)` starting at the same offset, in either
order. -/
theorem bitand_half_open_characterization_witness :
    (RegionSector.new 5 0).sectorCount = 0 ∧
    (RegionSector.new 5 0).sectorOffset = (RegionSector.new 5 3).sectorOffset ∧
    (RegionSector.new 5 0).bitand (RegionSector.new 5 3) = false ∧
    (RegionSector.new 5 3).bitand (RegionSector.new 5 0) = false :=
  ⟨by decide, by decide,
   (bitand_half_open_characterization.2 (RegionSector.new 5 0) (RegionSector.new 5 3)
      (by decide) (by decide)).1,
   (bitand_half_open_characterization.2 (RegionSector.new 5 0) (RegionSector.new 5 3)
      (by decide) (by decide)).2⟩

/-- Claim C3 counterexample: the count-0 sector at offset 5 lies strictly
inside the sector `(offset 4, count 2)`, and the overlap predicate returns
`true` for the pair — refuting "sectors whose count is 0 never overlap
anything". -/
theorem bitand_zero_count_overlaps_ctrex :
    (RegionSector.new 5 0).sectorCount = 0 ∧
    (RegionSector.new 5 0).bitand (RegionSector.new 4 2) = true ∧
    (RegionSector.new 4 2).bitand (RegionSector.new 5 0) = true := by
  decide

/-- Claim C10: the `From<integer>` conversions into `RegionCoord` store the
value unmasked (only truncated to `u16`), so the coordinate built from 2000
has `index() = 2000 ≥ 1024`, and indexing a `RegionTable` or a
`RegionBitmask` with it is an out-of-bounds access (modelled as `none`)
rather than a value for a slot in `[0, 1024)`. -/
theorem regionCoord_from_unmasked_oob :
    (∀ n : Nat, (RegionCoord.fromU16 n).index = n % 65536) ∧
    (RegionCoord.fromU16 2000).index = 2000 ∧
    1024 ≤ (RegionCoord.fromU16 2000).index ∧
    (∀ t : RegionTable Nat, t.get? (RegionCoord.fromU16 2000) = none) ∧
    (∀ m : RegionBitmask, m.get? (RegionCoord.fromU16 2000) = none) := by
  refine ⟨fun n => rfl, by decide, by decide, fun t => ?_, fun m => ?_⟩
  · simp [RegionTable.get?, RegionCoord.fromU16, RegionCoord.index]
  · simp [RegionBitmask.get?, RegionCoord.fromU16, RegionCoord.index]

/-- Claim C6: deleting the same coord twice succeeds both times and the
second call is a no-op — it returns the empty sector and leaves the
resulting state (header tables, sector manager, and every byte of the
file) exactly as the first call left it. -/
theorem deleteData_twice_noop (st : RegionFileState) (i : Fin 1024) :
    deleteData (deleteData st i).2 i = (RegionSector.empty, (deleteData st i).2) := by
  have key : ∀ st2 : RegionFileState, st2.sectors i = RegionSector.empty →
      deleteData st2 i = (RegionSector.empty, st2) := by
    intro st2 hs
    simp [deleteData, hs, RegionSector.isEmpty, RegionSector.empty]
  by_cases h : (st.sectors i).isEmpty
  · have hs : st.sectors i = RegionSector.empty := by
      have hv : (st.sectors i).val = 0 := by simpa [RegionSector.isEmpty] using h
      cases hsec : st.sectors i with
      | mk v =>
        rw [hsec] at hv
        simpa [RegionSector.empty] using hv
    rw [key st hs]
    exact key st hs
  · have h1 : (deleteData st i).2.sectors i = RegionSector.empty := by
      simp [deleteData, h, Function.update_same]
    exact key _ h1

/-- Claim C8 (amended): a payload whose zlib stream is exactly 4091 bytes
is written into exactly 1 sector and one of 4092 bytes into exactly 2; and
for every encoded size `n` with `n + 5 < 2^32` (no `u32` wraparound in the
`(length + 5) as u32` cast of regionfile.rs line 151) the computed required
sector count is `ceil((n + 5) / 4096)`.  The original unrestricted formula
is refuted at `n = 2^32 - 5` by `required_sectors_u32_wrap_ctrex`. -/
theorem write_required_sectors_boundary :
    writtenSector (writeData freshState slot0 (List.replicate 4091 0)) =
      some (RegionSector.new 2 1) ∧
    (RegionSector.new 2 1).sectorCount = 1 ∧
    writtenSector (writeData freshState slot0 (List.replicate 4092 0)) =
      some (RegionSector.new 2 2) ∧
    (RegionSector.new 2 2).sectorCount = 2 ∧
    (∀ n : Nat, n + 5 < 4294967296 →
      requiredSectors ((n + 5) % 4294967296) = (n + 5 + 4095) / 4096) := by
  refine ⟨?_, by decide, ?_, by decide, ?_⟩
  · have hbig : ¬ 255 < requiredSectors
        (((List.replicate 4091 (0 : Nat)).length + 5) % 4294967296) := by
      simp only [List.length_replicate]
      norm_num [requiredSectors]
    have hre : freshState.manager.reallocErr (freshState.sectors slot0)
        (requiredSectors (((List.replicate 4091 (0 : Nat)).length + 5) % 4294967296)) =
        .ok (RegionSector.new 2 1, SectorManager.mk [] 3) := by
      simp only [List.length_replicate]
      rfl
    rw [writeData_ok_shape freshState slot0 _ _ _ hbig hre]
    rfl
  · have hbig : ¬ 255 < requiredSectors
        (((List.replicate 4092 (0 : Nat)).length + 5) % 4294967296) := by
      simp only [List.length_replicate]
      norm_num [requiredSectors]
    have hre : freshState.manager.reallocErr (freshState.sectors slot0)
        (requiredSectors (((List.replicate 4092 (0 : Nat)).length + 5) % 4294967296)) =
        .ok (RegionSector.new 2 2, SectorManager.mk [] 4) := by
      simp only [List.length_replicate]
      rfl
    rw [writeData_ok_shape freshState slot0 _ _ _ hbig hre]
    rfl
  · intro n h
    rw [Nat.mod_eq_of_lt h, requiredSectors_eq_ceil]

/-- Claim C8 witness: the general formula applied at the boundary size
4091. -/
theorem write_required_sectors_boundary_witness :
    4091 + 5 < 4294967296 ∧
    requiredSectors ((4091 + 5) % 4294967296) = (4091 + 5 + 4095) / 4096 :=
  ⟨by norm_num, write_required_sectors_boundary.2.2.2.2 4091 (by norm_num)⟩

/-- Claim C8 counterexample: at an encoded size of `2^32 - 5` bytes the
`(length + 5) as u32` cast wraps to 0, so the computed required sector
count is 0 while `ceil((n + 5) / 4096) = 1048576`; `write_data` then fails
with `RegionAllocationFailure` (a zero-sector allocation) instead of
treating the chunk as needing 1048576 sectors. -/
theorem required_sectors_u32_wrap_ctrex :
    requiredSectors (((4294967291 : Nat) + 5) % 4294967296) = 0 ∧
    ((4294967291 : Nat) + 5 + 4095) / 4096 = 1048576 ∧
    writeData freshState slot0 (List.replicate 4294967291 0) =
      .error .RegionAllocationFailure := by
  refine ⟨by norm_num [requiredSectors], by norm_num, ?_⟩
  simp only [writeData, List.length_replicate]
  rfl

/-- Claim C2: on a region file whose slot-0 header entry is
`(offset 2, count 1)` but whose stored frame length is zero,
`rebuild_region_file` (and likewise the copy branch of `write_chunks`)
aborts the whole operation with `ChunkNotFound` — `copy_chunk_from`
returns `Err(McError::ChunkNotFound)` at a zero length (region.rs line
1294), contradicting its own doc comment ("nothing is copied and the value
returned is an empty RegionSector") and the spec, which say the slot entry
is reset to empty and the rebuild continues. -/
theorem rebuild_zero_length_aborts_bug :
    rebuildRegionFile c2InputFile = .error .ChunkNotFound ∧
    (writeChunks (some c2InputFile) 0 []).1 = .error .ChunkNotFound := by
  constructor
  · rfl
  · rfl

/-- Claim C5 (amended): when two entries of the input map to the same
`RegionCoord` (including distinct `(x, z)` pairs normalizing to the same
slot), `write_chunks` fails with `DuplicateChunk` and a pre-existing region
file at the path is left unchanged.  The original claim's "the region file
at the given path is left unchanged" is too strong for a path with no
file: `create_empty_region_file` runs before the duplicate check (region.rs
lines 1658-1661), so the failed call leaves a fresh empty 8 KiB region
file behind — see `writeChunks_duplicate_creates_file_ctrex`. -/
theorem writeChunks_duplicate_rejected (disk : Option (Nat → Nat)) (ts : Nat)
    (entries : List ((Nat × Nat) × List Nat))
    (hdup : ¬ (entries.map entrySlot).Nodup) :
    (writeChunks disk ts entries).1 = .error .DuplicateChunk ∧
    (writeChunks disk ts entries).2 = some (disk.getD (fun _ => 0)) := by
  have hb := buildChunksArr_dup entries (fun _ => none) (Or.inl hdup)
  constructor
  · simp [writeChunks, hb]
  · simp [writeChunks, hb]

/-- Claim C5 witness: the coords `(0, 0)` and `(32, 32)` normalize to the
same slot, the call fails with `DuplicateChunk`, and the existing file at
the path is untouched. -/
theorem writeChunks_duplicate_rejected_witness :
    ¬ (([((0, 0), [1]), ((32, 32), [2])].map entrySlot).Nodup) ∧
    (writeChunks (some (fun _ => 7)) 0 [((0, 0), [1]), ((32, 32), [2])]).1 =
      .error .DuplicateChunk ∧
    (writeChunks (some (fun _ => 7)) 0 [((0, 0), [1]), ((32, 32), [2])]).2 =
      some (fun _ => 7) :=
  ⟨by decide,
   (writeChunks_duplicate_rejected (some (fun _ => 7)) 0 _ (by decide)).1,
   (writeChunks_duplicate_rejected (some (fun _ => 7)) 0 _ (by decide)).2⟩

/-- Claim C5 counterexample: with no file at the path, the duplicate call
still fails with `DuplicateChunk`, but the path is no longer empty — an
empty region file was created before the duplicate check, so the failed
call did change the path. -/
theorem writeChunks_duplicate_creates_file_ctrex :
    (writeChunks none 0 [((0, 0), [1]), ((0, 0), [2])]).1 = .error .DuplicateChunk ∧
    (writeChunks none 0 [((0, 0), [1]), ((0, 0), [2])]).2 ≠ none := by
  constructor
  · rfl
  · have hval : (writeChunks none 0 [((0, 0), [1]), ((0, 0), [2])]).2 =
        some (fun _ => 0) := rfl
    rw [hval]
    simp

/-- Claim C7: a successful `write_data` leaves the whole timestamp table
unchanged, in memory (the `timestamps` component is untouched) and on disk
(no byte of the timestamp table region `[4096, 8192)` changes: the frame
is written at a byte offset of at least 8192 and the sector-table entry at
an offset below 4096); and `write_timestamped` is the call that does
update the in-memory (and on-disk) timestamp entry. -/
theorem writeData_preserves_timestamps (st : RegionFileState) (i : Fin 1024)
    (enc : List Nat) (ts : Nat) (hwf : st.manager.wf)
    (hs : (st.sectors i).inBounds st.manager.tail) :
    (match writeData st i enc with
     | .ok (st2, _) => st2.timestamps = st.timestamps ∧
         ∀ a, 4096 ≤ a → a < 8192 → st2.file a = st.file a
     | .error _ => True) ∧
    (match writeTimestamped st i enc ts with
     | .ok (st2, _) => st2.timestamps i = ts % 4294967296
     | .error _ => True) := by
  constructor
  · by_cases hbig : 255 < requiredSectors ((enc.length + 5) % 4294967296)
    · simp [writeData, hbig]
    · cases hre : st.manager.reallocErr (st.sectors i)
          (requiredSectors ((enc.length + 5) % 4294967296)) with
      | error e => simp [writeData, hbig, hre]
      | ok p =>
        obtain ⟨ns, mgr⟩ := p
        have hb := SectorManager.reallocErr_bounds st.manager (st.sectors i) _ ns mgr
          hwf hs hre
        rw [writeData_ok_shape st i enc ns mgr hbig hre]
        refine ⟨rfl, ?_⟩
        intro a ha1 ha2
        show writeBytesF (writeBytesF st.file ns.byteOffset (frameBuffer enc))
          (4 * i.val) (be32 ns.val) a = st.file a
        rw [writeBytesF_out _ _ _ _ (Or.inr (by
          rw [be32_length]
          have := i.isLt
          omega))]
        rw [writeBytesF_out _ _ _ _ (Or.inl (by
          have h2 := hb.1
          simp only [RegionSector.byteOffset]
          omega))]
  · cases hw : writeData st i enc with
    | error e => simp [writeTimestamped, hw]
    | ok p =>
      obtain ⟨st1, alloc⟩ := p
      simp [writeTimestamped, hw, Function.update_same]

/-- Claim C7 witness: on a fresh file (well-formed manager, empty slot),
writing one byte at slot 0 succeeds into sector `(offset 2, count 1)`, and
`write_timestamped` with timestamp 7 stores 7. -/
theorem writeData_preserves_timestamps_witness :
    freshState.manager.wf ∧
    (freshState.sectors slot0).inBounds freshState.manager.tail ∧
    (match writeTimestamped freshState slot0 [65] 7 with
     | .ok (st2, _) => st2.timestamps slot0 = 7 % 4294967296
     | .error _ => True) ∧
    writtenSector (writeData freshState slot0 [65]) = some (RegionSector.new 2 1) :=
  ⟨freshState_manager_wf, Or.inl rfl,
   (writeData_preserves_timestamps freshState slot0 [65] 7 freshState_manager_wf
      (Or.inl rfl)).2,
   by rfl⟩

/-- Claim C9: both write paths emit compression scheme byte 2 (ZLib) for
every payload — a successful `RegionFile::write_data` leaves 2 at the
fifth byte of the written frame, and `RegionWriter::write_data_to_sector`
(used by `write_chunks` and the `RegionBuilder`) writes 2 at
`position + 4` — while the frame reader accepts scheme bytes 1 (GZip),
2 (ZLib) and 3 (raw). -/
theorem writers_emit_zlib_scheme (st : RegionFileState) (i : Fin 1024)
    (enc : List Nat) (hwf : st.manager.wf)
    (hs : (st.sectors i).inBounds st.manager.tail) :
    (match writeData st i enc with
     | .ok (st2, s) => st2.file (s.byteOffset + 4) = 2
     | .error _ => True) ∧
    (∀ (wfile : Nat → Nat) (wpos : Nat) (enc2 : List Nat),
      match writeDataToSector wfile wpos enc2 with
      | .ok (_, wf2, _) => wf2 (wpos + 4) = 2
      | .error _ => True) ∧
    readSchemeByte 1 = .ok .GZip ∧
    readSchemeByte 2 = .ok .ZLib ∧
    readSchemeByte 3 = .ok .Uncompressed := by
  refine ⟨?_, ?_, rfl, rfl, rfl⟩
  · by_cases hbig : 255 < requiredSectors ((enc.length + 5) % 4294967296)
    · simp [writeData, hbig]
    · cases hre : st.manager.reallocErr (st.sectors i)
          (requiredSectors ((enc.length + 5) % 4294967296)) with
      | error e => simp [writeData, hbig, hre]
      | ok p =>
        obtain ⟨ns, mgr⟩ := p
        have hb := SectorManager.reallocErr_bounds st.manager (st.sectors i) _ ns mgr
          hwf hs hre
        rw [writeData_ok_shape st i enc ns mgr hbig hre]
        have hoff : 8192 ≤ ns.byteOffset := by
          have h2 := hb.1
          simp only [RegionSector.byteOffset]
          omega
        show writeBytesF (writeBytesF st.file ns.byteOffset (frameBuffer enc))
          (4 * i.val) (be32 ns.val) (ns.byteOffset + 4) = 2
        rw [writeBytesF_out _ _ _ _ (Or.inr (by
          rw [be32_length]
          have := i.isLt
          omega))]
        rw [writeBytesF_in _ _ _ _ (by omega) (by
          rw [frameBuffer_length]
          omega)]
        rw [Nat.add_sub_cancel_left]
        exact frameBuffer_getD_four enc
  · intro wfile wpos enc2
    by_cases hbd : wpos % 4096 ≠ 0
    · simp [writeDataToSector, hbd]
    · simp only [writeDataToSector]
      rw [if_neg hbd]
      show writeBytesF wfile wpos (frameBuffer enc2) (wpos + 4) = 2
      rw [writeBytesF_in _ _ _ _ (by omega) (by rw [frameBuffer_length]; omega)]
      rw [Nat.add_sub_cancel_left]
      exact frameBuffer_getD_four enc2

/-- Claim C9 witness: on a fresh file, writing the one-byte stream `[65]`
at slot 0 succeeds into sector `(offset 2, count 1)` and the byte at frame
offset 4 is the ZLib scheme value 2. -/
theorem writers_emit_zlib_scheme_witness :
    freshState.manager.wf ∧
    (freshState.sectors slot0).inBounds freshState.manager.tail ∧
    (match writeData freshState slot0 [65] with
     | .ok (st2, s) => st2.file (s.byteOffset + 4) = 2
     | .error _ => True) ∧
    writtenSector (writeData freshState slot0 [65]) = some (RegionSector.new 2 1) :=
  ⟨freshState_manager_wf, Or.inl rfl,
   (writers_emit_zlib_scheme freshState slot0 [65] freshState_manager_wf
      (Or.inl rfl)).1,
   by rfl⟩

/-- Claim C4: refuted by the code — a payload whose zlib stream is
`2^32 + 4091` bytes has a framed size of `2^32 + 4096 > 255 * 4096` bytes,
yet `write_data` succeeds (allocating a single sector) instead of failing
with `ChunkTooLarge`: the `(length + 5) as u32` cast (regionfile.rs line
151) wraps the framed size to 4096 before the 255-sector check, although
the adjacent comment says an overflow must return an error.  (For framed
sizes in `(255 * 4096, 2^32)` the check does fire, erroring before any
state is touched.) -/
theorem writeData_chunkTooLarge_wrap_bug :
    255 * 4096 < (List.replicate 4294971387 0).length + 5 ∧
    writtenSector (writeData freshState slot0 (List.replicate 4294971387 0)) =
      some (RegionSector.new 2 1) := by
  constructor
  · rw [List.length_replicate]
    norm_num
  · have hbig : ¬ 255 < requiredSectors
        (((List.replicate 4294971387 (0 : Nat)).length + 5) % 4294967296) := by
      simp only [List.length_replicate]
      norm_num [requiredSectors]
    have hre : freshState.manager.reallocErr (freshState.sectors slot0)
        (requiredSectors (((List.replicate 4294971387 (0 : Nat)).length + 5) % 4294967296)) =
        .ok (RegionSector.new 2 1, SectorManager.mk [] 3) := by
      simp only [List.length_replicate]
      rfl
    rw [writeData_ok_shape freshState slot0 _ _ _ hbig hre]
    rfl

/-- Claim C1: refuted by the code — on a fresh file, writing a payload
whose zlib stream is `2^32 - 1` bytes succeeds (the `(length + 5) as u32`
cast wraps the framed size to 4, passing the 255-sector check), but the
frame's length field is written as `(length + 1) as u32 = 0`, so the
subsequent `read_data` at the same coord returns `ChunkNotFound` instead
of the payload, breaking the write/read round trip the claim states. -/
theorem writeData_readData_u32_wrap_bug :
    writtenSector (writeData freshState slot0 (List.replicate 4294967295 0)) =
      some (RegionSector.new 2 1) ∧
    readData (writtenState (writeData freshState slot0 (List.replicate 4294967295 0))
      freshState) slot0 = .error .ChunkNotFound := by
  have hbig : ¬ 255 < requiredSectors
      (((List.replicate 4294967295 0).length + 5) % 4294967296) := by
    simp only [List.length_replicate]
    norm_num [requiredSectors]
  have hw := writeData_ok_shape freshState slot0 (List.replicate 4294967295 0)
    (RegionSector.new 2 1) (SectorManager.mk [] 3) hbig reallocErr_fresh_one
  refine ⟨by rw [hw]; rfl, ?_⟩
  rw [hw]
  simp only [writtenState]
  have hlen : readU32 (writeBytesF (writeBytesF freshState.file
      (RegionSector.new 2 1).byteOffset
      (frameBuffer (List.replicate 4294967295 0)))
      (4 * slot0.val) (be32 (RegionSector.new 2 1).val)) 8192 = 0 := by
    rw [readU32]
    have h0 := wrapWrite_bytes_zero 0 (by omega)
    have h1 := wrapWrite_bytes_zero 1 (by omega)
    have h2 := wrapWrite_bytes_zero 2 (by omega)
    have h3 := wrapWrite_bytes_zero 3 (by omega)
    rw [show (8192 : Nat) + 0 = 8192 from rfl] at h0
    rw [h0, h1, h2, h3]
  generalize hG : writeBytesF (writeBytesF freshState.file
      (RegionSector.new 2 1).byteOffset
      (frameBuffer (List.replicate 4294967295 0)))
      (4 * slot0.val) (be32 (RegionSector.new 2 1).val) = F at hlen ⊢
  simp only [readData, Function.update_same]
  rw [show (RegionSector.new 2 1).byteOffset = 8192 from rfl]
  rw [hlen]
  simp [RegionSector.isEmpty, RegionSector.new]
